import Mathlib

/-!
# Verification of the GitHubRepoStats merge-and-upsert pipeline

Shallow embedding of the core of `db.py` and `report.py`:
the merge engine `append_new_data`, the two store adapters
(`save_to_mongodb`, `save_to_cosmosdb`, `fetch_all_data_from_*`),
the preprocessing/validation layer (`preprocess_data`,
`validate_*_schema`, `convert_to_json_serializable`) and the
stars/forks normalizers (`process_stars_data`, `process_forks_data`).

Machine integers of the source are modelled as `Nat`/`Int`; Python
dicts as ordered association lists; fallible operations return
`Except`.
-/

namespace RepoStats

/-! ## Lexicographic string comparison

Python's `str <` and pandas' object-dtype `sort_values` compare
strings lexicographically by code point.  `chLE` is that order on the
underlying character lists. -/

def chLE : List Char → List Char → Bool
  | [], _ => true
  | _ :: _, [] => false
  | a :: as, b :: bs =>
    if a.toNat < b.toNat then true
    else if b.toNat < a.toNat then false
    else chLE as bs

def strLE (s t : String) : Bool := chLE s.data t.data

theorem chLE_total : ∀ as bs : List Char, chLE as bs = true ∨ chLE bs as = true := by
  intro as
  induction as with
  | nil => intro bs; left; simp [chLE]
  | cons a as ih =>
    intro bs
    cases bs with
    | nil => right; simp [chLE]
    | cons b bs =>
      by_cases hab : a.toNat < b.toNat
      · left; simp [chLE, hab]
      · by_cases hba : b.toNat < a.toNat
        · right; simp [chLE, hba]
        · rcases ih bs with h | h
          · left; simp [chLE, hab, hba, h]
          · right; simp [chLE, hab, hba, h]

theorem chLE_trans : ∀ as bs cs : List Char,
    chLE as bs = true → chLE bs cs = true → chLE as cs = true := by
  intro as
  induction as with
  | nil => intro bs cs _ _; simp [chLE]
  | cons a as ih =>
    intro bs cs h1 h2
    cases bs with
    | nil => simp [chLE] at h1
    | cons b bs =>
      cases cs with
      | nil => simp [chLE] at h2
      | cons c cs =>
        simp only [chLE] at h1 h2 ⊢
        by_cases hab : a.toNat < b.toNat
        · by_cases hbc : b.toNat < c.toNat
          · have : a.toNat < c.toNat := Nat.lt_trans hab hbc
            simp [this]
          · by_cases hcb : c.toNat < b.toNat
            · simp [hab, hbc, hcb] at h2
            · have hbceq : b.toNat = c.toNat := Nat.le_antisymm (Nat.le_of_not_lt hcb) (Nat.le_of_not_lt hbc)
              have : a.toNat < c.toNat := hbceq ▸ hab
              simp [this]
        · by_cases hba : b.toNat < a.toNat
          · simp [hab, hba] at h1
          · have habeq : a.toNat = b.toNat := Nat.le_antisymm (Nat.le_of_not_lt hba) (Nat.le_of_not_lt hab)
            simp only [habeq]
            by_cases hbc : b.toNat < c.toNat
            · simp [hbc]
            · by_cases hcb : c.toNat < b.toNat
              · simp [hbc, hcb] at h2
              · simp only [hab, hba, if_neg, ite_self] at h1
                simp only [hbc, hcb, if_neg, ite_self] at h2
                simp [hbc, hcb, ih bs cs h1 h2]

theorem strLE_total (s t : String) : strLE s t = true ∨ strLE t s = true :=
  chLE_total s.data t.data

theorem strLE_trans {s t u : String} (h1 : strLE s t = true) (h2 : strLE t u = true) :
    strLE s u = true :=
  chLE_trans s.data t.data u.data h1 h2

/-! ## Calendar dates and the `%m-%d-%Y` rendering -/

/-- A calendar date, the parse result of `pd.to_datetime`. -/
structure Date where
  month : Nat
  day : Nat
  year : Nat
  deriving DecidableEq, Repr

/-- Zero-padded two-digit rendering (`%m`, `%d`). -/
def pad2 (n : Nat) : String :=
  if n < 10 then "0" ++ toString n else toString n

/-- Zero-padded four-digit rendering (`%Y`). -/
def pad4 (n : Nat) : String :=
  if n < 10 then "000" ++ toString n
  else if n < 100 then "00" ++ toString n
  else if n < 1000 then "0" ++ toString n
  else toString n

/-- `strftime('%m-%d-%Y')`. -/
def fmtDate (d : Date) : String :=
  pad2 d.month ++ "-" ++ pad2 d.day ++ "-" ++ pad4 d.year

/-- The true calendar order (year, then month, then day), the order the
spec means by "ascending by date". -/
def calLT (a b : Date) : Bool :=
  a.year < b.year ||
    (a.year == b.year && (a.month < b.month ||
      (a.month == b.month && a.day < b.day)))

def digitVal? (c : Char) : Option Nat :=
  if c.isDigit then some (c.toNat - 48) else none

def parse2 (a b : Char) : Option Nat :=
  match digitVal? a, digitVal? b with
  | some x, some y => some (10 * x + y)
  | _, _ => none

def parse4 (a b c d : Char) : Option Nat :=
  match parse2 a b, parse2 c d with
  | some x, some y => some (100 * x + y)
  | _, _ => none

/-- Parsing of an `MM-DD-YYYY` string, the format every date string of
this program is stored in (`pd.to_datetime` with month-first inference;
calendar-day validity per month is approximated by `day ≤ 31`). -/
def parseMDY (s : String) : Option Date :=
  match s.data with
  | [m1, m2, '-', d1, d2, '-', y1, y2, y3, y4] =>
    match parse2 m1 m2, parse2 d1 d2, parse4 y1 y2 y3 y4 with
    | some m, some d, some y =>
      if 1 ≤ m ∧ m ≤ 12 ∧ 1 ≤ d ∧ d ≤ 31 then some ⟨m, d, y⟩ else none
    | _, _, _ => none
  | _ => none

/-! ## The merge engine: `append_new_data` (db.py lines 46-68)

A cell of the date column is either a raw wire string, a formatted
date — the result of `strftime('%m-%d-%Y')`, identified by its calendar
value since that format is injective on calendar dates and
`pd.to_datetime` parses it back to the same date — or missing
(`NaN`/`NaT`). -/

inductive DateCell where
  | raw (s : String)
  | fmt (d : Date)
  | nan
  deriving DecidableEq, Repr

/-- `pd.to_datetime(col, errors='coerce').dt.strftime('%m-%d-%Y')`
(db.py lines 58-61) on one cell: a raw string is parsed (coercion
failure gives `NaT`, rendered as `NaN`); an already-formatted date
re-parses to itself; missing stays missing. -/
def normCell : DateCell → DateCell
  | .raw s => match parseMDY s with
    | some d => .fmt d
    | none => .nan
  | .fmt d => .fmt d
  | .nan => .nan

/-- One row of a merged stream: the identity-key (date) column plus its
metric payload. -/
structure DRow where
  date : DateCell
  payload : Int
  deriving DecidableEq, Repr

def normRow (r : DRow) : DRow := { r with date := normCell r.date }

/-- `drop_duplicates(subset=[date_column], keep='last')` (db.py line 64):
a row survives iff no later row carries the same date-column value
(pandas treats `NaN` cells as equal for this purpose). -/
def dropDupKeepLast : List DRow → List DRow
  | [] => []
  | r :: rs =>
    if rs.any (fun x => x.date == r.date) then dropDupKeepLast rs
    else r :: dropDupKeepLast rs

/-- The sort key `sort_values(by=date_column)` actually compares: the
stored column holds `%m-%d-%Y` strings (object dtype), so pandas orders
them lexicographically as strings, with `NaN` placed last
(`na_position='last'`). -/
def cellKey : DateCell → Option String
  | .raw s => some s
  | .fmt d => some (fmtDate d)
  | .nan => none

def cellLE (a b : DateCell) : Bool :=
  match cellKey a, cellKey b with
  | _, none => true
  | none, some _ => false
  | some x, some y => strLE x y

/-- The row order used by `sort_values(by=date_column)` (db.py line 65). -/
def rowle (a b : DRow) : Prop := cellLE a.date b.date = true

instance : DecidableRel rowle :=
  fun a b => inferInstanceAs (Decidable (cellLE a.date b.date = true))

theorem cellLE_total (a b : DateCell) : cellLE a b = true ∨ cellLE b a = true := by
  rcases hka : cellKey a with _ | x <;> rcases hkb : cellKey b with _ | y <;>
    simp [cellLE, hka, hkb]
  exact strLE_total x y

theorem cellLE_trans {a b c : DateCell} (h1 : cellLE a b = true) (h2 : cellLE b c = true) :
    cellLE a c = true := by
  rcases hka : cellKey a with _ | x <;> rcases hkb : cellKey b with _ | y <;>
    rcases hkc : cellKey c with _ | z <;>
    simp_all [cellLE, hka, hkb, hkc]
  exact strLE_trans h1 h2

instance : IsTotal DRow rowle := ⟨fun a b => cellLE_total a.date b.date⟩

instance : IsTrans DRow rowle := ⟨fun _ _ _ h1 h2 => cellLE_trans h1 h2⟩

/-- `append_new_data` (db.py lines 46-68) with the backend fetch already
performed: `old_data` is what `fetch_all_data_from_*` returned, `new_data`
the freshly normalized batch.  Both date columns are reformatted to
`%m-%d-%Y`, the frames concatenated old-first, duplicates on the date
column dropped keeping the last occurrence, and the survivors sorted by
the date column. -/
def append_new_data (old_data new_data : List DRow) : List DRow :=
  let new_df := new_data.map normRow
  let old_df := old_data.map normRow
  let combined_df := old_df ++ new_df
  List.insertionSort rowle (dropDupKeepLast combined_df)

/-- The last row of `l`, in input order, whose date-column value is `k` —
the row `keep='last'` retains for the key `k`. -/
def lastMatch (k : DateCell) : List DRow → Option DRow
  | [] => none
  | r :: rs =>
    match lastMatch k rs with
    | some x => some x
    | none => if r.date == k then some r else none

/-! ## Merge-engine lemmas -/

theorem mem_dropDupKeepLast {x : DRow} : ∀ {l : List DRow},
    x ∈ dropDupKeepLast l → x ∈ l := by
  intro l
  induction l with
  | nil => simp [dropDupKeepLast]
  | cons r rs ih =>
    simp only [dropDupKeepLast]
    by_cases h : rs.any (fun y => y.date == r.date)
    · rw [if_pos h]
      intro hx
      exact List.mem_cons_of_mem r (ih hx)
    · rw [if_neg h]
      intro hx
      rcases List.mem_cons.mp hx with h1 | h1
      · exact h1 ▸ List.mem_cons_self r rs
      · exact List.mem_cons_of_mem r (ih h1)

theorem dropDupKeepLast_pairwise : ∀ l : List DRow,
    (dropDupKeepLast l).Pairwise (fun a b => a.date ≠ b.date) := by
  intro l
  induction l with
  | nil => simp [dropDupKeepLast]
  | cons r rs ih =>
    simp only [dropDupKeepLast]
    by_cases h : rs.any (fun y => y.date == r.date)
    · rw [if_pos h]; exact ih
    · rw [if_neg h]
      refine List.Pairwise.cons ?_ ih
      intro x hx hcontra
      have hxrs : x ∈ rs := mem_dropDupKeepLast hx
      have : rs.any (fun y => y.date == r.date) = true := by
        rw [List.any_eq_true]
        exact ⟨x, hxrs, by simp [hcontra]⟩
      exact h this

theorem lastMatch_isSome_iff_any (k : DateCell) : ∀ l : List DRow,
    (lastMatch k l).isSome = l.any (fun r => r.date == k) := by
  intro l
  induction l with
  | nil => simp [lastMatch]
  | cons r rs ih =>
    simp only [lastMatch, List.any_cons]
    cases hm : lastMatch k rs with
    | some x =>
      have hany : rs.any (fun r => r.date == k) = true := by rw [← ih, hm]; rfl
      simp [hany]
    | none =>
      have hany : rs.any (fun r => r.date == k) = false := by rw [← ih, hm]; rfl
      by_cases hr : r.date == k
      · simp [hr]
      · simp [hr, hany]

theorem filter_dropDupKeepLast (k : DateCell) : ∀ l : List DRow,
    (dropDupKeepLast l).filter (fun r => r.date == k) = (lastMatch k l).toList := by
  intro l
  induction l with
  | nil => simp [dropDupKeepLast, lastMatch]
  | cons r rs ih =>
    simp only [dropDupKeepLast, lastMatch]
    by_cases hdup : rs.any (fun y => y.date == r.date)
    · rw [if_pos hdup]
      by_cases hr : r.date == k
      · have hk : rs.any (fun y => y.date == k) = true := by
          have : r.date = k := by simpa using hr
          simpa [this] using hdup
        have : (lastMatch k rs).isSome = true := by
          rw [lastMatch_isSome_iff_any]; exact hk
        cases hm : lastMatch k rs with
        | some x => simp [hm, ih]
        | none => rw [hm] at this; simp at this
      · cases hm : lastMatch k rs with
        | some x => simp [hm, ih]
        | none => simp [hm, hr, ih]
    · rw [if_neg hdup]
      by_cases hr : r.date == k
      · have hkeq : r.date = k := by simpa using hr
        have hnone : rs.any (fun y => y.date == k) = false := by
          subst hkeq; simpa using hdup
        have : (lastMatch k rs).isSome = false := by
          rw [lastMatch_isSome_iff_any]; exact hnone
        cases hm : lastMatch k rs with
        | some x => rw [hm] at this; simp at this
        | none =>
          rw [hm] at ih
          simp [hm, hr, List.filter_cons, ih]
      · cases hm : lastMatch k rs with
        | some x => simp [hm, hr, List.filter_cons, ih]
        | none => simp [hm, hr, List.filter_cons, ih]

theorem lastMatch_append (k : DateCell) : ∀ xs ys : List DRow,
    lastMatch k (xs ++ ys) =
      match lastMatch k ys with
      | some r => some r
      | none => lastMatch k xs := by
  intro xs ys
  induction xs with
  | nil => simp [lastMatch]; cases lastMatch k ys <;> simp [lastMatch]
  | cons x xs ih =>
    simp only [List.cons_append, lastMatch]
    rw [show xs.append ys = xs ++ ys from rfl, ih]
    cases lastMatch k ys <;> cases lastMatch k xs <;> simp

theorem map_normRow_self : ∀ l : List DRow, (∀ r ∈ l, normRow r = r) →
    l.map normRow = l := by
  intro l h
  induction l with
  | nil => simp
  | cons r rs ih =>
    simp only [List.map_cons]
    rw [h r (List.mem_cons_self r rs), ih fun x hx => h x (List.mem_cons_of_mem r hx)]

theorem normCell_idem (c : DateCell) : normCell (normCell c) = normCell c := by
  cases c with
  | raw s =>
    simp only [normCell]
    cases parseMDY s <;> simp [normCell]
  | fmt d => rfl
  | nan => rfl

theorem normRow_idem (r : DRow) : normRow (normRow r) = normRow r := by
  simp [normRow, normCell_idem]

theorem dropDupKeepLast_eq_self : ∀ l : List DRow,
    l.Pairwise (fun a b => a.date ≠ b.date) → dropDupKeepLast l = l := by
  intro l h
  induction l with
  | nil => rfl
  | cons r rs ih =>
    rcases List.pairwise_cons.mp h with ⟨hhead, htail⟩
    have hany : rs.any (fun y => y.date == r.date) = false := by
      rw [List.any_eq_false]
      intro x hx
      simpa using fun hcontra => hhead x hx hcontra.symm
    simp only [dropDupKeepLast, hany]
    simp [ih htail]

/-- Helper shared by the uniqueness and idempotence results: the merged
output never holds two rows with the same date-column value. -/
theorem append_new_data_key_pairwise (old_data new_data : List DRow) :
    (append_new_data old_data new_data).Pairwise (fun a b => a.date ≠ b.date) := by
  have hperm := List.perm_insertionSort rowle
    (dropDupKeepLast (old_data.map normRow ++ new_data.map normRow))
  exact (hperm.pairwise_iff fun h he => h he.symm).mpr (dropDupKeepLast_pairwise _)

/-- The claimed (spec) order on date cells: ascending by *calendar* date
— an earlier calendar day never follows a later one. -/
def calCellLE (a b : DateCell) : Bool :=
  match a, b with
  | .fmt da, .fmt db => !(calLT db da)
  | _, _ => true

/-! ## Claims about the merge engine -/

/-- C2: for every pair of input row lists and the identity-key (date)
column, `append_new_data` returns an output in which no two rows share
the same value in that column. -/
theorem merge_at_most_one_per_key (old_data new_data : List DRow) :
    (append_new_data old_data new_data).Pairwise (fun a b => a.date ≠ b.date) :=
  append_new_data_key_pairwise old_data new_data

/-- C3: when the old history holds a row with key `k` and value `v1` and
the new batch holds rows with key `k`, the last of which (in input
order) carries `v2`, the merged output holds exactly one row for `k`,
and that row is the last new row, carrying `v2`. -/
theorem merge_override_order (old_data new_data : List DRow) (k : DateCell)
    (rOld rNew : DRow) (v1 v2 : Int)
    (hOldMem : rOld ∈ old_data) (hOldKey : rOld.date = k) (hOldVal : rOld.payload = v1)
    (hNormOld : ∀ r ∈ old_data, normRow r = r) (hNormNew : ∀ r ∈ new_data, normRow r = r)
    (hLast : lastMatch k new_data = some rNew) (hNewVal : rNew.payload = v2) :
    (append_new_data old_data new_data).filter (fun r => r.date == k) = [rNew]
      ∧ rNew.payload = v2 := by
  refine ⟨?_, hNewVal⟩
  show (List.insertionSort rowle
    (dropDupKeepLast (old_data.map normRow ++ new_data.map normRow))).filter
      (fun r => r.date == k) = [rNew]
  rw [map_normRow_self old_data hNormOld, map_normRow_self new_data hNormNew]
  have hperm := (List.perm_insertionSort rowle
    (dropDupKeepLast (old_data ++ new_data))).filter (fun r => r.date == k)
  rw [filter_dropDupKeepLast, lastMatch_append, hLast] at hperm
  simp only [Option.toList_some] at hperm
  exact List.perm_singleton.mp hperm

/-- Witness for C3 at a concrete input: history holds `01-02-2021 ↦ 10`,
the new batch holds two rows for that date, the later carrying `12`. -/
theorem merge_override_order_witness :
    (append_new_data [⟨.fmt ⟨1, 2, 2021⟩, 10⟩]
        [⟨.fmt ⟨1, 2, 2021⟩, 11⟩, ⟨.fmt ⟨1, 2, 2021⟩, 12⟩]).filter
      (fun r => r.date == .fmt ⟨1, 2, 2021⟩) = [⟨.fmt ⟨1, 2, 2021⟩, 12⟩]
      ∧ (⟨.fmt ⟨1, 2, 2021⟩, 12⟩ : DRow).payload = 12 :=
  merge_override_order [⟨.fmt ⟨1, 2, 2021⟩, 10⟩]
    [⟨.fmt ⟨1, 2, 2021⟩, 11⟩, ⟨.fmt ⟨1, 2, 2021⟩, 12⟩]
    (.fmt ⟨1, 2, 2021⟩) ⟨.fmt ⟨1, 2, 2021⟩, 10⟩ ⟨.fmt ⟨1, 2, 2021⟩, 12⟩ 10 12
    (by decide) (by decide) (by decide) (by decide) (by decide) (by decide) (by decide)

/-- C4: merging a row set with empty history and re-merging the result
with an empty new batch is a no-op. -/
theorem merge_idempotent (R : List DRow) :
    append_new_data (append_new_data [] R) [] = append_new_data [] R := by
  have hLdef : append_new_data [] R =
      List.insertionSort rowle (dropDupKeepLast (R.map normRow)) := by
    show List.insertionSort rowle (dropDupKeepLast (List.map normRow [] ++ R.map normRow)) = _
    simp
  have hmem : ∀ x ∈ append_new_data [] R, normRow x = x := by
    intro x hx
    rw [hLdef] at hx
    have hx1 : x ∈ dropDupKeepLast (R.map normRow) := (List.mem_insertionSort rowle).mp hx
    have hx2 : x ∈ R.map normRow := mem_dropDupKeepLast hx1
    rcases List.mem_map.mp hx2 with ⟨y, _, rfl⟩
    exact normRow_idem y
  have hpair : (append_new_data [] R).Pairwise (fun a b => a.date ≠ b.date) :=
    append_new_data_key_pairwise [] R
  have hsorted : (append_new_data [] R).Sorted rowle := by
    rw [hLdef]; exact List.sorted_insertionSort rowle _
  show List.insertionSort rowle
    (dropDupKeepLast ((append_new_data [] R).map normRow ++ List.map normRow [])) =
      append_new_data [] R
  rw [map_normRow_self _ hmem]
  simp only [List.map_nil, List.append_nil]
  rw [dropDupKeepLast_eq_self _ hpair]
  exact hsorted.insertionSort_eq

/-- C5 (counterexample): with rows for `12-31-2020` and `01-01-2021`,
the merged output places `01-01-2021` — a calendar-*later* day — first,
because the sort compares the `%m-%d-%Y` strings lexicographically, so
the output is not ascending by calendar date across a year boundary. -/
theorem merge_sort_calendar_counterexample :
    append_new_data [] [⟨.fmt ⟨12, 31, 2020⟩, 7⟩, ⟨.fmt ⟨1, 1, 2021⟩, 9⟩] =
      [⟨.fmt ⟨1, 1, 2021⟩, 9⟩, ⟨.fmt ⟨12, 31, 2020⟩, 7⟩]
    ∧ calLT ⟨12, 31, 2020⟩ ⟨1, 1, 2021⟩ = true
    ∧ ¬ (append_new_data [] [⟨.fmt ⟨12, 31, 2020⟩, 7⟩, ⟨.fmt ⟨1, 1, 2021⟩, 9⟩]).Pairwise
        (fun a b => calCellLE a.date b.date = true) := by
  refine ⟨by decide, by decide, ?_⟩
  decide

/-- C5 (amended): the merged output is sorted ascending by the
lexicographic order of the `%m-%d-%Y`-rendered date strings (missing
dates last) — which agrees with calendar order only within a year, not
across year boundaries. -/
theorem merge_sorted_by_date_string (old_data new_data : List DRow) :
    (append_new_data old_data new_data).Sorted rowle :=
  List.sorted_insertionSort rowle _

/-! ## Wire values and persisted documents (db.py)

A scalar value of a row dict.  A Python float is modelled opaquely by
the three observations the code makes of it: `f.is_integer()`, `int(f)`
and `str(f)`.  `vTimestamp` models a raw `pd.Timestamp`/`datetime`
object; `vNone` models `None`/`NaN`.  Numeric-epoch interpretation of
integer date cells by `pd.to_datetime` is outside the modelled data
domain (date cells of this program are strings or timestamps). -/

inductive Val where
  | vStr (s : String)
  | vInt (n : Int)
  | vFloat (isInteger : Bool) (ival : Int) (sval : String)
  | vTimestamp (d : Date)
  | vNone
  deriving DecidableEq, Repr

/-- A row/document: a Python dict as an ordered association list
(keys unique in every dict the program builds). -/
abbrev Item := List (String × Val)

def itemGet (it : Item) (k : String) : Option Val :=
  (it.find? (fun p => p.1 == k)).map (fun p => p.2)

/-- Python dict assignment `item[k] = v`: replace in place if the key
exists, else append. -/
def itemSet : Item → String → Val → Item
  | [], k, v => [(k, v)]
  | p :: ps, k, v => if p.1 == k then (k, v) :: ps else p :: itemSet ps k v

/-- `pd.isna` on the scalars above: true on `None`/`NaT`. -/
def isNA : Val → Bool
  | .vNone => true
  | _ => false

/-- `pd.to_datetime(v, errors='coerce')` on one scalar: parse a string,
pass a timestamp through, anything else coerces to `NaT` (`none`). -/
def toDatetime? : Val → Option Date
  | .vStr s => parseMDY s
  | .vTimestamp d => some d
  | _ => none

/-! ### `preprocess_data` (db.py lines 153-194) -/

/-- Model of `uuid.uuid4()`: the `n`-th draw from the generator.
Distinct draws are distinct (uuid4 never repeats), which the model
realizes by encoding the draw index in the string. -/
def uuid4 (n : Nat) : String := "uuid-" ++ String.mk (List.replicate n 'x')

/-- The `'Date'` block: absent key is left alone; a `NaN` date or an
unparseable date (whose `NaT.strftime` raises `ValueError`) drops the
item (`continue`); otherwise the cell is rewritten to `%m-%d-%Y`. -/
def dateFix (item : Item) : Option Item :=
  match itemGet item "Date" with
  | none => some item
  | some dv =>
    if isNA dv then none
    else match toDatetime? dv with
      | some d => some (itemSet item "Date" (.vStr (fmtDate d)))
      | none => none

/-- One step of the numeric-field loop: `if isinstance(item[f], float):
item[f] = int(item[f])`. -/
def numFixField (item : Item) (f : String) : Item :=
  match itemGet item f with
  | some (.vFloat _ i _) => itemSet item f (.vInt i)
  | _ => item

def numFix (item : Item) : Item :=
  ["Views", "Unique visitors", "Clones", "Unique cloners"].foldl numFixField item

/-- The `'FetchedAt'` block: `NaN` and unparseable values become `None`,
parseable values are rewritten to `%m-%d-%Y`. -/
def fetchedAtFix (item : Item) : Item :=
  match itemGet item "FetchedAt" with
  | none => item
  | some fv =>
    if isNA fv then itemSet item "FetchedAt" .vNone
    else match toDatetime? fv with
      | some d => itemSet item "FetchedAt" (.vStr (fmtDate d))
      | none => itemSet item "FetchedAt" .vNone

/-- `'id' not in item or pd.isna(item['id']) or item['id'] == "nan"`. -/
def needsId (item : Item) : Bool :=
  match itemGet item "id" with
  | none => true
  | some v => isNA v || v == .vStr "nan"

def idFix (item : Item) (ctr : Nat) : Item × Nat :=
  if needsId item then (itemSet item "id" (.vStr (uuid4 ctr)), ctr + 1)
  else (item, ctr)

/-- One iteration of the `preprocess_data` loop; `none` means the item
was dropped by a `continue`.  The counter threads the uuid supply. -/
def preprocess_item (owner repo : String) (item : Item) (ctr : Nat) :
    Option Item × Nat :=
  let item1 := itemSet (itemSet item "Repo Owner" (.vStr owner)) "Repo Name" (.vStr repo)
  match dateFix item1 with
  | none => (none, ctr)
  | some item2 =>
    let item3 := fetchedAtFix (numFix item2)
    idFix item3 ctr |> fun p => (some p.1, p.2)

def preprocess_data (data : List Item) (owner repo : String) (ctr : Nat) :
    List Item × Nat :=
  match data with
  | [] => ([], ctr)
  | it :: rest =>
    match preprocess_item owner repo it ctr with
    | (some it2, ctr2) =>
      let p := preprocess_data rest owner repo ctr2
      (it2 :: p.1, p.2)
    | (none, ctr2) => preprocess_data rest owner repo ctr2

/-! ### Schema validators (db.py lines 203-325) -/

def isStrVal : Val → Bool
  | .vStr _ => true
  | _ => false

def isIntVal : Val → Bool
  | .vInt _ => true
  | _ => false

def isStrOrNoneVal : Val → Bool
  | .vStr _ => true
  | .vNone => true
  | _ => false

def validate_about_schema (data : List Item) : Bool :=
  data.all fun item =>
    ["Repo Owner", "Repo Name", "About"].all fun f =>
      match itemGet item f with
      | none => false
      | some v =>
        if f == "Repo Owner" || f == "Repo Name" then isStrVal v
        else isStrOrNoneVal v

def validate_traffic_stats_schema (data : List Item) : Bool :=
  data.all fun item =>
    ["Date", "Views", "Unique visitors", "Repo Owner", "Repo Name"].all fun f =>
      match itemGet item f with
      | none => false
      | some v =>
        if f == "Date" then isStrVal v
        else if f == "Views" || f == "Unique visitors" then isIntVal v
        else isStrVal v

def validate_clones_schema (data : List Item) : Bool :=
  data.all fun item =>
    ["Date", "Clones", "Unique cloners", "Repo Owner", "Repo Name"].all fun f =>
      match itemGet item f with
      | none => false
      | some v =>
        if f == "Date" then isStrVal v
        else if f == "Clones" || f == "Unique cloners" then isIntVal v
        else isStrVal v

def validate_referring_sites_schema (data : List Item) : Bool :=
  data.all fun item =>
    ["Referring site", "Views", "Unique visitors", "FetchedAt",
      "Repo Owner", "Repo Name"].all fun f =>
      match itemGet item f with
      | none => false
      | some v =>
        if f == "Views" || f == "Unique visitors" then isIntVal v
        else isStrOrNoneVal v

def validate_popular_content_schema (data : List Item) : Bool :=
  data.all fun item =>
    ["Path", "Title", "Views", "Unique visitors", "FetchedAt",
      "Repo Owner", "Repo Name"].all fun f =>
      match itemGet item f with
      | none => false
      | some v =>
        if f == "Views" || f == "Unique visitors" then isIntVal v
        else isStrOrNoneVal v

def validate_stars_schema (data : List Item) : Bool :=
  data.all fun item =>
    ["Date", "Total Stars", "Repo Owner", "Repo Name"].all fun f =>
      match itemGet item f with
      | none => false
      | some v =>
        if f == "Date" then isStrVal v
        else if f == "Total Stars" then isIntVal v
        else isStrVal v

def validate_forks_schema (data : List Item) : Bool :=
  data.all fun item =>
    ["Date", "Total Forks", "Repo Owner", "Repo Name"].all fun f =>
      match itemGet item f with
      | none => false
      | some v =>
        if f == "Date" then isStrVal v
        else if f == "Total Forks" then isIntVal v
        else isStrVal v

/-! ### JSON conversion and the Cosmos save path -/

/-- `convert_to_json_serializable` (db.py lines 136-151) restricted to
one scalar: timestamps/datetimes render as `%m-%d-%Y`, integral floats
become ints, other floats become their string rendering. -/
def convertVal : Val → Val
  | .vTimestamp d => .vStr (fmtDate d)
  | .vFloat true i _ => .vInt i
  | .vFloat false _ s => .vStr s
  | v => v

/-- The dict branch of `convert_to_json_serializable`: keys kept,
values converted. -/
def convertItem (it : Item) : Item := it.map (fun p => (p.1, convertVal p.2))

/-- `validate_json` (db.py lines 127-134): `json.dumps` succeeds iff no
raw temporal object remains in the document. -/
def validate_json (it : Item) : Bool :=
  it.all fun p =>
    match p.2 with
    | .vTimestamp _ => false
    | _ => true

/-- `validate_and_convert_data` (db.py lines 196-201): preprocess, then
fail the whole batch when the schema validator rejects it, else convert
every item. -/
def validate_and_convert_data (data : List Item) (validator : List Item → Bool)
    (owner repo : String) (ctr : Nat) : Except String (List Item × Nat) :=
  let p := preprocess_data data owner repo ctr
  if validator p.1 then .ok (p.1.map convertItem, p.2)
  else .error "Invalid data schema"

/-! ### The MongoDB save path (db.py lines 101-125) -/

/-- `unique_field_map` (db.py lines 106-114). -/
def unique_field_map (collection_name : String) : Option String :=
  if collection_name == "TrafficStats" then some "Date"
  else if collection_name == "GitClones" then some "Date"
  else if collection_name == "ReferringSites" then some "Referring site"
  else if collection_name == "PopularContent" then some "Path"
  else if collection_name == "Stars" then some "Date"
  else if collection_name == "Forks" then some "Date"
  else if collection_name == "About" then some "Repo Name"
  else none

/-- `item.get(field)`: `None` when the key is absent.  A Mongo query
`{f: None}` also matches documents lacking `f`, so both sides read
through this. -/
def queryVal (it : Item) (k : String) : Val :=
  match itemGet it k with
  | some v => v
  | none => .vNone

def matchesQuery (uf : String) (item : Item) (r : Item) : Bool :=
  queryVal r uf == queryVal item uf

/-- `update_one` touches only the first matching document. -/
def updateFirst (p : Item → Bool) (f : Item → Item) : List Item → List Item
  | [] => []
  | r :: rs => if p r then f r :: rs else r :: updateFirst p f rs

/-- `$set`: each field of `item` written into the document `r`. -/
def setFields (r item : Item) : Item :=
  item.foldl (fun acc p => itemSet acc p.1 p.2) r

/-- `collection.update_one({uf: item.get(uf)}, {"$set": item},
upsert=True)`: update the first match in place, else insert the
document formed from the query plus the `$set` fields. -/
def mongo_upsert_one (uf : String) (store : List Item) (item : Item) : List Item :=
  if store.any (matchesQuery uf item) then
    updateFirst (matchesQuery uf item) (fun r => setFields r item) store
  else store ++ [setFields [(uf, queryVal item uf)] item]

/-- `save_to_mongodb` (db.py lines 101-125): no schema validation —
every row of `data` is upserted keyed on the collection's unique field. -/
def save_to_mongodb (collection_name : String) (store : List Item)
    (data : List Item) : Except String (List Item) :=
  match unique_field_map collection_name with
  | none => .error "Unknown collection name"
  | some uf => .ok (data.foldl (mongo_upsert_one uf) store)

/-! ### The Cosmos DB save path (db.py lines 327-359) -/

/-- `schema_validators` (db.py lines 329-337). -/
def schema_validator_for (container_name : String) : Option (List Item → Bool) :=
  if container_name == "TrafficStats" then some validate_traffic_stats_schema
  else if container_name == "GitClones" then some validate_clones_schema
  else if container_name == "ReferringSites" then some validate_referring_sites_schema
  else if container_name == "PopularContent" then some validate_popular_content_schema
  else if container_name == "Stars" then some validate_stars_schema
  else if container_name == "Forks" then some validate_forks_schema
  else if container_name == "About" then some validate_about_schema
  else none

/-- `container.upsert_item(item)` with partition key `/id`: replace the
document with the same `id`, else insert. -/
def cosmos_upsert_one (store : List Item) (item : Item) : List Item :=
  if store.any (fun r => itemGet r "id" == itemGet item "id") then
    updateFirst (fun r => itemGet r "id" == itemGet item "id") (fun _ => item) store
  else store ++ [item]

/-- `save_to_cosmosdb` (db.py lines 327-359): validate-and-convert the
batch (a `ValueError` aborts before any upsert), then upsert each
JSON-serializable item keyed by `id`.  The uuid counter threads the
adapter's id generation. -/
def save_to_cosmosdb (container_name : String) (store : List Item) (ctr : Nat)
    (data : List Item) (owner repo : String) : Except String (List Item × Nat) :=
  match schema_validator_for container_name with
  | none => .error "Unknown container name"
  | some validator =>
    match validate_and_convert_data data validator owner repo ctr with
    | .error e => .error e
    | .ok (cdata, ctr2) =>
      .ok (cdata.foldl
        (fun s it => if validate_json it then cosmos_upsert_one s it else s) store, ctr2)

/-! ### Fetch (db.py lines 25-44) -/

def lookupStr {β : Type} (m : List (String × β)) (k : String) : Option β :=
  (m.find? (fun p => p.1 == k)).map (fun p => p.2)

/-- `fetch_all_data_from_mongodb` (db.py lines 25-31): MongoDB creates
databases and collections lazily, so `find({})` on a missing one
returns no documents (the internal `_id` is excluded by the
projection and does not appear in stored rows here). -/
def fetch_all_data_from_mongodb (client : List (String × List (String × List Item)))
    (database_name collection_name : String) : List Item :=
  match lookupStr client database_name with
  | none => []
  | some db =>
    match lookupStr db collection_name with
    | none => []
    | some rows => rows

/-- `container.query_items("SELECT * FROM c")`: raises
`CosmosResourceNotFoundError` when the database or container is
missing. -/
def cosmos_query_items (client : List (String × List (String × List Item)))
    (database_name container_name : String) : Except String (List Item) :=
  match lookupStr client database_name with
  | none => .error "CosmosResourceNotFoundError"
  | some db =>
    match lookupStr db container_name with
    | none => .error "CosmosResourceNotFoundError"
    | some rows => .ok rows

/-- `fetch_all_data_from_cosmosdb` (db.py lines 33-44): the
not-found error is caught and an empty frame returned. -/
def fetch_all_data_from_cosmosdb (client : List (String × List (String × List Item)))
    (database_name container_name : String) : List Item :=
  match cosmos_query_items client database_name container_name with
  | .ok items => items
  | .error _ => []

/-! ## Dict lemmas -/

theorem itemGet_itemSet_self (it : Item) (k : String) (v : Val) :
    itemGet (itemSet it k v) k = some v := by
  induction it with
  | nil => simp [itemSet, itemGet]
  | cons p ps ih =>
    by_cases h : p.1 == k
    · simp [itemSet, h, itemGet]
    · simp only [itemSet, h]
      rw [if_neg (by simp_all)]
      simpa [itemGet, List.find?, h] using ih

theorem itemGet_itemSet_ne (it : Item) (k k2 : String) (v : Val) (h : k2 ≠ k) :
    itemGet (itemSet it k v) k2 = itemGet it k2 := by
  induction it with
  | nil =>
    simp only [itemSet, itemGet, List.find?]
    rw [show ((k == k2) = false) from by simpa using fun he => h he.symm]
  | cons p ps ih =>
    by_cases hp : p.1 == k
    · have hpk : p.1 = k := by simpa using hp
      simp only [itemSet, hp, if_pos]
      simp only [itemGet, List.find?]
      rw [show ((k == k2) = false) from by simpa using fun he => h he.symm,
        show ((p.1 == k2) = false) from by simp [hpk]; exact fun he => h he.symm]
    · simp only [itemSet, hp]
      rw [if_neg (by simp_all)]
      by_cases hq : p.1 == k2
      · simp [itemGet, List.find?, hq]
      · simpa [itemGet, List.find?, hq] using ih

theorem itemGet_numFixField_ne (it : Item) (f k : String) (h : k ≠ f) :
    itemGet (numFixField it f) k = itemGet it k := by
  unfold numFixField
  cases hv : itemGet it f with
  | none => rfl
  | some v =>
    cases v with
    | vFloat b i s => exact itemGet_itemSet_ne it f k _ h
    | vStr s => rfl
    | vInt n => rfl
    | vTimestamp d => rfl
    | vNone => rfl

theorem itemGet_numFix_of_ne (it : Item) (k : String)
    (h1 : k ≠ "Views") (h2 : k ≠ "Unique visitors")
    (h3 : k ≠ "Clones") (h4 : k ≠ "Unique cloners") :
    itemGet (numFix it) k = itemGet it k := by
  simp only [numFix, List.foldl_cons, List.foldl_nil]
  rw [itemGet_numFixField_ne _ _ _ h4, itemGet_numFixField_ne _ _ _ h3,
    itemGet_numFixField_ne _ _ _ h2, itemGet_numFixField_ne _ _ _ h1]

theorem itemGet_fetchedAtFix_ne (it : Item) (k : String) (h : k ≠ "FetchedAt") :
    itemGet (fetchedAtFix it) k = itemGet it k := by
  unfold fetchedAtFix
  split
  · rfl
  · split
    · exact itemGet_itemSet_ne it _ k _ h
    · split
      · exact itemGet_itemSet_ne it _ k _ h
      · exact itemGet_itemSet_ne it _ k _ h

theorem dateFix_of_no_date (it : Item) (h : itemGet it "Date" = none) :
    dateFix it = some it := by
  unfold dateFix
  rw [h]

/-! ## Claims about the Cosmos adapter's generated ids (C6) -/

theorem uuid4_injective {n m : Nat} (h : uuid4 n = uuid4 m) : n = m := by
  have hlen : (uuid4 n).length = (uuid4 m).length := by rw [h]
  simpa [uuid4, String.length_append, String.length] using hlen

/-- C6 (amended): a logical row lacking an `id` (and without a date
column, e.g. a ReferringSites row) is assigned the *next* uuid draw by
`preprocess_data`; invocations at different generator states produce
different ids, so repeated upserts of the same logical row do not
resolve to one partition id. -/
theorem preprocess_id_fresh (item : Item) (owner repo : String) (n m : Nat)
    (hid : itemGet item "id" = none) (hdate : itemGet item "Date" = none)
    (hnm : n ≠ m) :
    ∃ itn itm : Item,
      preprocess_data [item] owner repo n = ([itn], n + 1)
      ∧ preprocess_data [item] owner repo m = ([itm], m + 1)
      ∧ itemGet itn "id" = some (.vStr (uuid4 n))
      ∧ itemGet itm "id" = some (.vStr (uuid4 m))
      ∧ itemGet itn "id" ≠ itemGet itm "id" := by
  have hstage : ∀ c : Nat,
      preprocess_data [item] owner repo c =
        ([itemSet (fetchedAtFix (numFix (itemSet (itemSet item "Repo Owner"
          (.vStr owner)) "Repo Name" (.vStr repo)))) "id" (.vStr (uuid4 c))], c + 1)
      ∧ itemGet (itemSet (fetchedAtFix (numFix (itemSet (itemSet item "Repo Owner"
          (.vStr owner)) "Repo Name" (.vStr repo)))) "id" (.vStr (uuid4 c))) "id"
          = some (.vStr (uuid4 c)) := by
    intro c
    have hd1 : itemGet (itemSet (itemSet item "Repo Owner" (.vStr owner))
        "Repo Name" (.vStr repo)) "Date" = none := by
      rw [itemGet_itemSet_ne _ _ _ _ (by decide),
        itemGet_itemSet_ne _ _ _ _ (by decide), hdate]
    have hi1 : itemGet (fetchedAtFix (numFix (itemSet (itemSet item "Repo Owner"
        (.vStr owner)) "Repo Name" (.vStr repo)))) "id" = none := by
      rw [itemGet_fetchedAtFix_ne _ _ (by decide),
        itemGet_numFix_of_ne _ _ (by decide) (by decide) (by decide) (by decide),
        itemGet_itemSet_ne _ _ _ _ (by decide),
        itemGet_itemSet_ne _ _ _ _ (by decide), hid]
    have hneeds : needsId (fetchedAtFix (numFix (itemSet (itemSet item "Repo Owner"
        (.vStr owner)) "Repo Name" (.vStr repo)))) = true := by
      unfold needsId
      rw [hi1]
    constructor
    · simp only [preprocess_data, preprocess_item]
      rw [dateFix_of_no_date _ hd1]
      simp only [idFix, hneeds, if_pos]
    · exact itemGet_itemSet_self _ _ _
  refine ⟨_, _, (hstage n).1, (hstage m).1, (hstage n).2, (hstage m).2, ?_⟩
  rw [(hstage n).2, (hstage m).2]
  intro hcontra
  exact hnm (uuid4_injective (by simpa using hcontra))

/-- Witness for C6 (amended) at the empty logical row and generator
states 0 and 1. -/
theorem preprocess_id_fresh_witness :
    ∃ itn itm : Item,
      preprocess_data [[]] "o" "r" 0 = ([itn], 0 + 1)
      ∧ preprocess_data [[]] "o" "r" 1 = ([itm], 1 + 1)
      ∧ itemGet itn "id" = some (.vStr (uuid4 0))
      ∧ itemGet itm "id" = some (.vStr (uuid4 1))
      ∧ itemGet itn "id" ≠ itemGet itm "id" :=
  preprocess_id_fresh [] "o" "r" 0 1 rfl rfl (by decide)

/-- A Stars row as the normalizer emits it: no `id` field yet. -/
def starsItem : Item := [("Date", .vStr "01-01-2021"), ("Total Stars", .vInt 5)]

/-- The document the first upsert stores for `starsItem`. -/
def starsDoc1 : Item :=
  [("Date", .vStr "01-01-2021"), ("Total Stars", .vInt 5),
    ("Repo Owner", .vStr "o"), ("Repo Name", .vStr "r"), ("id", .vStr "uuid-")]

/-- The document the second upsert stores for the same logical row. -/
def starsDoc2 : Item :=
  [("Date", .vStr "01-01-2021"), ("Total Stars", .vInt 5),
    ("Repo Owner", .vStr "o"), ("Repo Name", .vStr "r"), ("id", .vStr "uuid-x")]

/-- C6 (counterexample): upserting the same logical Stars row (which
lacks a partition id) twice through the Cosmos adapter draws two
different generated ids, and the container ends up holding two
documents for that one logical row, not one. -/
theorem cosmos_upsert_duplicate_counterexample :
    save_to_cosmosdb "Stars" [] 0 [starsItem] "o" "r" = .ok ([starsDoc1], 1)
    ∧ save_to_cosmosdb "Stars" [starsDoc1] 1 [starsItem] "o" "r"
        = .ok ([starsDoc1, starsDoc2], 2)
    ∧ itemGet starsDoc1 "id" ≠ itemGet starsDoc2 "id"
    ∧ [starsDoc1, starsDoc2].length ≠ 1 := by
  refine ⟨rfl, rfl, by decide, by decide⟩

/-! ## Claims about schema validation before persistence (C7) -/

/-- A TrafficStats row missing the `Views` field. -/
def trafficItemNoViews : Item :=
  [("Date", .vStr "01-01-2021"), ("Unique visitors", .vInt 5),
    ("Repo Owner", .vStr "o"), ("Repo Name", .vStr "r")]

/-- C7 (counterexample): a TrafficStats batch missing `Views` fails the
schema validator, yet the mongodb variant of `save_data` still upserts
the row into the store — only the cosmosdb variant rejects the batch. -/
theorem mongodb_skips_validation_counterexample :
    validate_traffic_stats_schema [trafficItemNoViews] = false
    ∧ save_to_mongodb "TrafficStats" [] [trafficItemNoViews]
        = .ok [trafficItemNoViews]
    ∧ save_to_cosmosdb "TrafficStats" [] 0 [trafficItemNoViews] "o" "r"
        = .error "Invalid data schema" := by
  refine ⟨by decide, rfl, rfl⟩

/-- C7 (amended): when the preprocessed TrafficStats batch fails schema
validation, the cosmosdb variant rejects the whole batch before any
upsert, while the mongodb variant performs no validation and the upsert
loop still runs over every row of the batch. -/
theorem save_validation_backend_split (store : List Item) (ctr : Nat)
    (data : List Item) (owner repo : String)
    (hbad : validate_traffic_stats_schema
      (preprocess_data data owner repo ctr).1 = false) :
    save_to_cosmosdb "TrafficStats" store ctr data owner repo
      = .error "Invalid data schema"
    ∧ save_to_mongodb "TrafficStats" store data
      = .ok (data.foldl (mongo_upsert_one "Date") store) := by
  have h1 : validate_and_convert_data data validate_traffic_stats_schema
      owner repo ctr = Except.error "Invalid data schema" := by
    simp only [validate_and_convert_data]
    rw [hbad]
    simp
  constructor
  · have key : save_to_cosmosdb "TrafficStats" store ctr data owner repo
        = match validate_and_convert_data data validate_traffic_stats_schema
            owner repo ctr with
          | .error e => Except.error e
          | .ok (cdata, ctr2) => Except.ok (cdata.foldl
              (fun s it => if validate_json it then cosmos_upsert_one s it else s)
              store, ctr2) := rfl
    rw [h1] at key
    exact key
  · rfl

/-- Witness for C7 (amended) at the concrete `Views`-less batch. -/
theorem save_validation_backend_split_witness :
    save_to_cosmosdb "TrafficStats" [] 0 [trafficItemNoViews] "o" "r"
      = .error "Invalid data schema"
    ∧ save_to_mongodb "TrafficStats" [] [trafficItemNoViews]
      = .ok ([trafficItemNoViews].foldl (mongo_upsert_one "Date") []) :=
  save_validation_backend_split [] 0 [trafficItemNoViews] "o" "r" (by decide)

/-! ## Claims about the ReferringSites identity key (C8) -/

theorem updateFirst_length (p : Item → Bool) (f : Item → Item) :
    ∀ l : List Item, (updateFirst p f l).length = l.length := by
  intro l
  induction l with
  | nil => rfl
  | cons r rs ih =>
    simp only [updateFirst]
    by_cases h : p r
    · rw [if_pos h]; rfl
    · rw [if_neg h]; simpa using ih

/-- A ReferringSites row fetched on `01-01-2021`. -/
def rsItemJan : Item :=
  [("Referring site", .vStr "news.site"), ("Views", .vInt 10),
    ("Unique visitors", .vInt 5), ("FetchedAt", .vStr "01-01-2021"),
    ("Repo Owner", .vStr "o"), ("Repo Name", .vStr "r")]

/-- The same referrer fetched again on `01-02-2021`. -/
def rsItemFeb : Item :=
  [("Referring site", .vStr "news.site"), ("Views", .vInt 20),
    ("Unique visitors", .vInt 7), ("FetchedAt", .vStr "01-02-2021"),
    ("Repo Owner", .vStr "o"), ("Repo Name", .vStr "r")]

/-- C8 (counterexample): upserting the same referrer with a *different*
`FetchedAt` does not store a new row — the stored row is overwritten in
place and the collection still holds a single row for that referrer. -/
theorem referringsites_overwrite_counterexample :
    save_to_mongodb "ReferringSites" [] [rsItemJan] = .ok [rsItemJan]
    ∧ save_to_mongodb "ReferringSites" [rsItemJan] [rsItemFeb] = .ok [rsItemFeb]
    ∧ ([rsItemFeb] : List Item).length = 1
    ∧ itemGet rsItemFeb "FetchedAt" ≠ itemGet rsItemJan "FetchedAt" := by
  refine ⟨rfl, rfl, rfl, by decide⟩

/-- C8 (amended): the persisted identity key of the ReferringSites
stream in the mongodb backend is `Referring site` alone: when a row for
the same referrer is already stored, the upsert overwrites the first
matching document in place and the store's size does not grow, so the
store holds one row per referrer (carrying the latest fetch), not one
row per referrer per fetch. -/
theorem referringsites_key_is_referrer (store : List Item) (item : Item)
    (hm : store.any (matchesQuery "Referring site" item) = true) :
    save_to_mongodb "ReferringSites" store [item]
      = .ok (updateFirst (matchesQuery "Referring site" item)
          (fun r => setFields r item) store)
    ∧ (updateFirst (matchesQuery "Referring site" item)
        (fun r => setFields r item) store).length = store.length := by
  constructor
  · show Except.ok ([item].foldl (mongo_upsert_one "Referring site") store) = _
    simp [mongo_upsert_one, hm]
  · exact updateFirst_length _ _ store

/-- Witness for C8 (amended) at the concrete pair of fetches. -/
theorem referringsites_key_is_referrer_witness :
    save_to_mongodb "ReferringSites" [rsItemJan] [rsItemFeb]
      = .ok (updateFirst (matchesQuery "Referring site" rsItemFeb)
          (fun r => setFields r rsItemFeb) [rsItemJan])
    ∧ (updateFirst (matchesQuery "Referring site" rsItemFeb)
        (fun r => setFields r rsItemFeb) [rsItemJan]).length = [rsItemJan].length :=
  referringsites_key_is_referrer [rsItemJan] rsItemFeb (by decide)

/-! ## Claims about fetch on missing containers (C9) -/

/-- C9: when the database is missing, or present but the
collection/container is missing, both backend fetches return an empty
row sequence instead of raising. -/
theorem fetch_all_missing_returns_empty
    (client : List (String × List (String × List Item)))
    (database_name collection_name : String)
    (h : ∀ db, lookupStr client database_name = some db →
      lookupStr db collection_name = none) :
    fetch_all_data_from_mongodb client database_name collection_name = []
    ∧ fetch_all_data_from_cosmosdb client database_name collection_name = [] := by
  unfold fetch_all_data_from_mongodb fetch_all_data_from_cosmosdb cosmos_query_items
  cases hd : lookupStr client database_name with
  | none => exact ⟨rfl, rfl⟩
  | some db =>
    have hc := h db hd
    constructor <;> simp [hc]

/-- Witness for C9: a client holding a `ghstats` database without a
`TrafficStats` collection. -/
theorem fetch_all_missing_returns_empty_witness :
    fetch_all_data_from_mongodb [("ghstats", [("Stars", [])])] "ghstats" "TrafficStats" = []
    ∧ fetch_all_data_from_cosmosdb [("ghstats", [("Stars", [])])] "ghstats" "TrafficStats" = [] :=
  fetch_all_missing_returns_empty [("ghstats", [("Stars", [])])] "ghstats" "TrafficStats"
    (fun db hdb => by
      have h2 : some [("Stars", ([] : List Item))] = some db := hdb
      cases h2
      rfl)

/-! ## The stars/forks normalizers (report.py lines 353-395) -/

/-- A raw stargazer event from the wire, carrying its `starred_at`
timestamp (ISO `YYYY-MM-DDTHH:MM:SSZ`). -/
structure StarEvent where
  starred_at : String
  deriving DecidableEq, Repr

/-- A raw fork event from the wire, carrying its `created_at`
timestamp. -/
structure ForkEvent where
  created_at : String
  deriving DecidableEq, Repr

/-- `sorted(stars_data, key=lambda x: x['starred_at'])`. -/
def starLe (a b : StarEvent) : Prop := strLE a.starred_at b.starred_at = true

instance : DecidableRel starLe :=
  fun a b => inferInstanceAs (Decidable (strLE a.starred_at b.starred_at = true))

def forkLe (a b : ForkEvent) : Prop := strLE a.created_at b.created_at = true

instance : DecidableRel forkLe :=
  fun a b => inferInstanceAs (Decidable (strLE a.created_at b.created_at = true))

/-- Python dict assignment for the `cumulative_count` dict. -/
def cmSet : List (String × Nat) → String → Nat → List (String × Nat)
  | [], k, v => [(k, v)]
  | p :: ps, k, v => if p.1 == k then (k, v) :: ps else p :: cmSet ps k v

/-- `cumulative_count.get(date, 0)` (and `cumulative_count[date]`, which
is only evaluated on present keys). -/
def cmGetD (d : List (String × Nat)) (k : String) (dflt : Nat) : Nat :=
  match (d.find? (fun p => p.1 == k)).map (fun p => p.2) with
  | some v => v
  | none => dflt

/-- `timestamp.split('T')[0]`. -/
def splitDateT (s : String) : String :=
  String.mk (s.data.takeWhile (fun c => c != 'T'))

/-- `datetime.strptime(date, '%Y-%m-%d').strftime('%m-%d-%Y')` as the
character shuffle it performs on a well-formed `YYYY-MM-DD` string. -/
def ymdToMdy (s : String) : String :=
  String.mk ((s.data.drop 5).take 2) ++ "-" ++
    String.mk ((s.data.drop 8).take 2) ++ "-" ++ String.mk (s.data.take 4)

/-- The loop `for star_info in sorted_data: total += 1;
cumulative_count[date] = total` over the already-extracted dates. -/
def buildCumulative : List String → Nat → List (String × Nat) → List (String × Nat)
  | [], _, acc => acc
  | d :: ds, total, acc => buildCumulative ds (total + 1) (cmSet acc d (total + 1))

structure StarRow where
  repoOwner : String
  repoName : String
  date : String
  totalStars : Int
  deriving DecidableEq, Repr

structure ForkRow where
  repoOwner : String
  repoName : String
  date : String
  totalForks : Int
  deriving DecidableEq, Repr

/-- `process_stars_data` (report.py lines 353-372): sort events by
`starred_at`, record the running count per date in `cumulative_count`,
then emit one row per distinct date whose `Total Stars` field is
`cumulative_count[date] - (cumulative_count.get(date, 0) - 1)`. -/
def process_stars_data (stars_data : List StarEvent) (owner repo : String) :
    List StarRow :=
  let sorted_data := List.insertionSort starLe stars_data
  let cumulative_count :=
    buildCumulative (sorted_data.map (fun e => splitDateT e.starred_at)) 0 []
  cumulative_count.map (fun p =>
    { repoOwner := owner
      repoName := repo
      date := ymdToMdy p.1
      totalStars := (Int.ofNat (cmGetD cumulative_count p.1 0))
        - ((Int.ofNat (cmGetD cumulative_count p.1 0)) - 1) })

/-- `process_forks_data` (report.py lines 375-394), same shape keyed on
`created_at` with a `Total Forks` field. -/
def process_forks_data (forks_data : List ForkEvent) (owner repo : String) :
    List ForkRow :=
  let sorted_data := List.insertionSort forkLe forks_data
  let cumulative_count :=
    buildCumulative (sorted_data.map (fun e => splitDateT e.created_at)) 0 []
  cumulative_count.map (fun p =>
    { repoOwner := owner
      repoName := repo
      date := ymdToMdy p.1
      totalForks := (Int.ofNat (cmGetD cumulative_count p.1 0))
        - ((Int.ofNat (cmGetD cumulative_count p.1 0)) - 1) })

/-- What the spec asks `Total Stars`/`Total Forks` to hold for a date:
the number of events whose creation date (`YYYY-MM-DD`, which compares
chronologically as a string) is on or before that date. -/
def runningTotalUpTo (timestamps : List String) (d : String) : Nat :=
  (timestamps.filter (fun t => strLE (splitDateT t) d)).length

def starsFix : List StarEvent :=
  [⟨"2021-01-01T00:00:00Z"⟩, ⟨"2021-01-01T01:00:00Z"⟩, ⟨"2021-01-02T00:00:00Z"⟩]

def forksFix : List ForkEvent :=
  [⟨"2021-01-01T00:00:00Z"⟩, ⟨"2021-01-01T01:00:00Z"⟩, ⟨"2021-01-02T00:00:00Z"⟩]

/-- C1: with two stars (resp. forks) on `2021-01-01` and one on
`2021-01-02`, the normalizers emit `Total Stars`/`Total Forks` = 1 on
*every* row — `c - (c - 1)` is identically 1 — while the running totals
as of those dates are 2 and 3.  The code thus contradicts both the spec
and its own `Total Stars`/`Total Forks` field names. -/
theorem stars_forks_total_is_constant_one :
    process_stars_data starsFix "o" "r" =
      [⟨"o", "r", "01-01-2021", 1⟩, ⟨"o", "r", "01-02-2021", 1⟩]
    ∧ runningTotalUpTo (starsFix.map (fun e => e.starred_at)) "2021-01-01" = 2
    ∧ runningTotalUpTo (starsFix.map (fun e => e.starred_at)) "2021-01-02" = 3
    ∧ process_forks_data forksFix "o" "r" =
      [⟨"o", "r", "01-01-2021", 1⟩, ⟨"o", "r", "01-02-2021", 1⟩]
    ∧ runningTotalUpTo (forksFix.map (fun e => e.created_at)) "2021-01-01" = 2
    ∧ runningTotalUpTo (forksFix.map (fun e => e.created_at)) "2021-01-02" = 3 := by
  refine ⟨by decide, by decide, by decide, by decide, by decide, by decide⟩

/-! ## `convert_to_json_serializable` on nested data (C10)

The full recursive converter (db.py lines 136-151) over arbitrarily
nested Python data.  Scalars are as in `Val`; dicts (string-keyed, as
everywhere in this program) and lists recurse. -/

mutual

inductive PyVal where
  | pyTimestamp (d : Date) : PyVal
  | pyDatetime (d : Date) : PyVal
  | pyFloat (isInteger : Bool) (ival : Int) (sval : String) : PyVal
  | pyInt (n : Int) : PyVal
  | pyStr (s : String) : PyVal
  | pyBool (b : Bool) : PyVal
  | pyNone : PyVal
  | pyDict (fields : PyFields) : PyVal
  | pyList (elems : PyElems) : PyVal

inductive PyFields where
  | nil : PyFields
  | cons (key : String) (value : PyVal) (rest : PyFields) : PyFields

inductive PyElems where
  | nil : PyElems
  | cons (value : PyVal) (rest : PyElems) : PyElems

end

mutual

/-- `convert_to_json_serializable` (db.py lines 136-151): timestamps and
datetimes render as `%m-%d-%Y` strings, integral floats become ints,
other floats become their string rendering, dicts keep keys and convert
values, lists convert elementwise, everything else passes through. -/
def convert_to_json_serializable : PyVal → PyVal
  | .pyTimestamp d => .pyStr (fmtDate d)
  | .pyDatetime d => .pyStr (fmtDate d)
  | .pyFloat true i _ => .pyInt i
  | .pyFloat false _ s => .pyStr s
  | .pyDict fs => .pyDict (convertFields fs)
  | .pyList es => .pyList (convertElems es)
  | .pyInt n => .pyInt n
  | .pyStr s => .pyStr s
  | .pyBool b => .pyBool b
  | .pyNone => .pyNone

def convertFields : PyFields → PyFields
  | .nil => .nil
  | .cons k v rest => .cons k (convert_to_json_serializable v) (convertFields rest)

def convertElems : PyElems → PyElems
  | .nil => .nil
  | .cons v rest => .cons (convert_to_json_serializable v) (convertElems rest)

end

mutual

/-- No raw temporal object and no float anywhere in the value. -/
def jsonClean : PyVal → Bool
  | .pyTimestamp _ => false
  | .pyDatetime _ => false
  | .pyFloat _ _ _ => false
  | .pyDict fs => fieldsClean fs
  | .pyList es => elemsClean es
  | .pyInt _ => true
  | .pyStr _ => true
  | .pyBool _ => true
  | .pyNone => true

def fieldsClean : PyFields → Bool
  | .nil => true
  | .cons _ v rest => jsonClean v && fieldsClean rest

def elemsClean : PyElems → Bool
  | .nil => true
  | .cons v rest => jsonClean v && elemsClean rest

end

mutual

theorem jsonClean_convert : ∀ v : PyVal,
    jsonClean (convert_to_json_serializable v) = true
  | .pyTimestamp _ => rfl
  | .pyDatetime _ => rfl
  | .pyFloat true _ _ => rfl
  | .pyFloat false _ _ => rfl
  | .pyInt _ => rfl
  | .pyStr _ => rfl
  | .pyBool _ => rfl
  | .pyNone => rfl
  | .pyDict fs => by
    have h := fieldsClean_convert fs
    simpa [convert_to_json_serializable, jsonClean] using h
  | .pyList es => by
    have h := elemsClean_convert es
    simpa [convert_to_json_serializable, jsonClean] using h

theorem fieldsClean_convert : ∀ fs : PyFields,
    fieldsClean (convertFields fs) = true
  | .nil => rfl
  | .cons k v rest => by
    have h1 := jsonClean_convert v
    have h2 := fieldsClean_convert rest
    simp [convertFields, fieldsClean, h1, h2]

theorem elemsClean_convert : ∀ es : PyElems,
    elemsClean (convertElems es) = true
  | .nil => rfl
  | .cons v rest => by
    have h1 := jsonClean_convert v
    have h2 := elemsClean_convert rest
    simp [convertElems, elemsClean, h1, h2]

end

/-- C10: the converter's output contains no pandas Timestamp, datetime
or float at any nesting depth inside dicts and lists; temporal objects
are replaced by their `%m-%d-%Y` string rendering, integral floats
become ints, other floats become their string rendering, and all other
values pass through unchanged. -/
theorem convert_to_json_serializable_clean :
    (∀ v : PyVal, jsonClean (convert_to_json_serializable v) = true)
    ∧ (∀ d : Date, convert_to_json_serializable (.pyTimestamp d) = .pyStr (fmtDate d))
    ∧ (∀ d : Date, convert_to_json_serializable (.pyDatetime d) = .pyStr (fmtDate d))
    ∧ (∀ (i : Int) (s : String),
        convert_to_json_serializable (.pyFloat true i s) = .pyInt i)
    ∧ (∀ (i : Int) (s : String),
        convert_to_json_serializable (.pyFloat false i s) = .pyStr s)
    ∧ (∀ n : Int, convert_to_json_serializable (.pyInt n) = .pyInt n)
    ∧ (∀ s : String, convert_to_json_serializable (.pyStr s) = .pyStr s)
    ∧ (∀ b : Bool, convert_to_json_serializable (.pyBool b) = .pyBool b)
    ∧ convert_to_json_serializable .pyNone = .pyNone :=
  ⟨jsonClean_convert, fun _ => rfl, fun _ => rfl, fun _ _ => rfl, fun _ _ => rfl,
    fun _ => rfl, fun _ => rfl, fun _ => rfl, rfl⟩

end RepoStats
